import Mathlib

/-!
Verification development for the Laku sales-tracking backend (`app.py`).

The Python source is shallowly embedded: the sales table of the relational
datastore becomes an in-memory `Ledger` (a list of rows plus the serial
counter), Python functions become Lean functions, raised exceptions become
`Except.error`, and the external collaborators (the Gemini model call, the
database connection) become explicit inputs (`Except String String` for the
model round trip, an `Option String` connection fault).  JSON values decoded
by `json.loads` are modelled by the inductive `JVal`; `re` regular-expression
searches are modelled by specialised backtracking matchers that follow the
exact pattern in the source.  Character classes `\d`, `\w`, `\s` and
`str.lower` are modelled at ASCII fidelity (the inputs exercised by the
specification are ASCII).  Machine floats of the source are modelled as `Rat`;
every concrete value exercised here is exactly representable.
-/

/-- JSON values as produced by `json.loads` (Python dicts keep insertion
order and last duplicate key wins, which `setKey` below reproduces). -/
inductive JVal where
  | null : JVal
  | bool : Bool → JVal
  | num : Rat → JVal
  | str : String → JVal
  | arr : List JVal → JVal
  | obj : List (String × JVal) → JVal
deriving Repr

/-- Python truthiness of a JSON-decoded value (`None`, `False`, `0`, `""`,
`[]`, `{}` are falsy). -/
def JVal.truthy : JVal → Bool
  | .null => false
  | .bool b => b
  | .num n => n ≠ 0
  | .str s => s ≠ ""
  | .arr xs => ¬ xs.isEmpty
  | .obj kvs => ¬ kvs.isEmpty

/-- Truthiness of `dict.get` output (`None` for a missing key is falsy). -/
def truthyO : Option JVal → Bool
  | none => false
  | some v => v.truthy

/-- Model of `dict.get(k)` on a decoded JSON object; `none` on non-objects (the source
would raise `AttributeError` there, which call sites handle explicitly). -/
def jget : JVal → String → Option JVal
  | .obj kvs, k => (kvs.find? (fun p => p.1 = k)).map (fun p => p.2)
  | _, _ => none

/-- Python dict assignment `d[k] = v`: update in place if the key exists,
otherwise append. -/
def setKey : List (String × JVal) → String → JVal → List (String × JVal)
  | [], k, v => [(k, v)]
  | (k', v') :: rest, k, v =>
      if k' = k then (k', v) :: rest else (k', v') :: setKey rest k v

/-- Class `\d` of the source pattern (ASCII digits). -/
def isDigitC (c : Char) : Bool := decide ('0' ≤ c) && decide (c ≤ '9')

/-- Class `\w` of the source pattern (ASCII letters, digits, underscore). -/
def isWordC (c : Char) : Bool := c.isAlpha || isDigitC c || decide (c = '_')

/-- Class `\s` of the source pattern (ASCII whitespace). -/
def isSpaceC (c : Char) : Bool :=
  decide (c = ' ') || decide (c = '\t') || decide (c = '\n') || decide (c = '\r') ||
  decide (c = '\x0b') || decide (c = '\x0c')

/-- Numeric value of a digit run. -/
def digitsVal (l : List Char) : Nat :=
  l.foldl (fun a c => a * 10 + (c.toNat - 48)) 0

/-- Model of `float(s)` for a string matched by `\d+\.?\d*`: integer part plus an
optional fractional part. -/
def pyFloat (intPart fracPart : List Char) : Rat :=
  (digitsVal intPart : Rat) + (digitsVal fracPart : Rat) / ((10 : Rat) ^ fracPart.length)

/-- Group 3 of the source pattern, `\d+\.?\d*`, matched greedily at the head
of the input, already converted by `float`. -/
def matchPrice (l : List Char) : Option Rat :=
  let ds := l.takeWhile isDigitC
  if ds.isEmpty then none
  else
    match l.drop ds.length with
    | '.' :: rest => some (pyFloat ds (rest.takeWhile isDigitC))
    | _ => some (pyFloat ds [])

/-- Piece `\$?` followed by group 3: a greedy optional dollar sign (backtracking on
the dollar can never succeed, since `$` is not a digit). -/
def tryDollarPrice (l : List Char) : Option Rat :=
  match l with
  | '$' :: rest => matchPrice rest
  | _ => matchPrice l

/-- The lazy `.*?\$?(\d+\.?\d*)` tail of the source pattern: try the price at
the current spot first, then consume one (non-newline) character and retry. -/
def matchTail : List Char → Option Rat
  | [] => none
  | c :: rest =>
      match tryDollarPrice (c :: rest) with
      | some p => some p
      | none => if c = '\n' then none else matchTail rest

/-- Backtracking for the greedy `(\w+)` group: try the word lengths from
`j` down to `1`, matching the lazy tail after each. -/
def tryWordAux (l : List Char) : Nat → Option (List Char × Rat)
  | 0 => none
  | j + 1 =>
      match matchTail (l.drop (j + 1)) with
      | some p => some (l.take (j + 1), p)
      | none => tryWordAux l j

/-- Group 2 `(\w+)` with its tail: maximal word run first, then shorter. -/
def tryWord (l : List Char) : Option (List Char × Rat) :=
  tryWordAux l (l.takeWhile isWordC).length

/-- One anchored attempt of the source pattern
`(\d+)\s+(\w+).*?\$?(\d+\.?\d*)` at the head of `l`.  `\d+` and `\s+` are
greedy with no useful backtracking because digits, whitespace and word
characters are pairwise disjoint classes. -/
def matchAt (l : List Char) : Option (Nat × List Char × Rat) :=
  let ds := l.takeWhile isDigitC
  if ds.isEmpty then none
  else
    let l1 := l.drop ds.length
    let sp := l1.takeWhile isSpaceC
    if sp.isEmpty then none
    else
      match tryWord (l1.drop sp.length) with
      | some (w, p) => some (digitsVal ds, w, p)
      | none => none

/-- Model of `re.search`: leftmost starting position whose anchored attempt succeeds. -/
def searchQtyWordPrice : List Char → Option (Nat × List Char × Rat)
  | [] => none
  | c :: rest =>
      match matchAt (c :: rest) with
      | some r => some r
      | none => searchQtyWordPrice rest

/-- Model of `str.lower()` at ASCII fidelity. -/
def pyLower (l : List Char) : List Char := l.map Char.toLower

/-- Function `parse_sales_input` (app.py lines 79-89): search the lowercased text for
`(\d+)\s+(\w+).*?\$?(\d+\.?\d*)`; on a match return
`(item_name, quantity, price)`, otherwise `(None, None, None)` (modelled as
`none`: the source returns either all three components or none of them). -/
def parse_sales_input (text : String) : Option (String × Nat × Rat) :=
  match searchQtyWordPrice (pyLower text.data) with
  | some (q, w, p) => some (String.mk w, q, p)
  | none => none


/-- A sale row of the `sales` table.  `created_at` is the insertion timestamp
in minutes (the summary code reads its hour-of-day and sorts by it);
`quantity` and `price` are the numeric columns. -/
structure Sale where
  id : Nat
  item_name : String
  quantity : Rat
  price : Rat
  created_at : Nat
deriving Repr, DecidableEq

/-- The datastore: the rows of the `sales` table in insertion order plus the
serial id counter (ids are assigned monotonically and never reused). -/
structure Ledger where
  rows : List Sale
  nextId : Nat
deriving Repr, DecidableEq

/-- Serial-column well-formedness: every stored id is below the counter. -/
def Ledger.WF (st : Ledger) : Prop := ∀ r ∈ st.rows, r.id < st.nextId

instance (st : Ledger) : Decidable st.WF := by
  unfold Ledger.WF; infer_instance

/-- Stable insertion into a descending-by-key list: the inserted element goes
before the first strictly smaller key (and before equal keys seen later,
matching Python's stable `sorted(..., reverse=True)`). -/
def insertDescBy (key : Sale → Nat) (x : Sale) : List Sale → List Sale
  | [] => [x]
  | y :: ys => if key y ≤ key x then x :: y :: ys else y :: insertDescBy key x ys

/-- Stable descending sort by a key, used for `ORDER BY id DESC` and for
`sorted(sales, key=created_at, reverse=True)`. -/
def sortDescBy (key : Sale → Nat) : List Sale → List Sale
  | [] => []
  | x :: xs => insertDescBy key x (sortDescBy key xs)

/-- Function `fetch_sales` (app.py lines 33-37): `SELECT * FROM sales ORDER BY id DESC`. -/
def fetch_sales (st : Ledger) : List Sale := sortDescBy (fun s => s.id) st.rows

/-- Function `insert_sale` (app.py lines 56-63): insert with server-assigned serial id
and insertion timestamp, returning the stored row. -/
def insert_sale (item_name : String) (quantity price : Rat) (st : Ledger)
    (now : Nat) : Sale × Ledger :=
  let s : Sale := { id := st.nextId, item_name := item_name, quantity := quantity,
                    price := price, created_at := now }
  (s, { rows := st.rows ++ [s], nextId := st.nextId + 1 })

/-- Result dictionary of `delete_sale`: either the delete-all message with a
count, the single-delete message with the removed row, or the `error` entry
for a missing id. -/
inductive DelResult where
  | allDeleted : Nat → DelResult
  | one : Sale → String → DelResult
  | notFound : String → DelResult
deriving Repr, DecidableEq

/-- Test `'error' in result` of the callers. -/
def DelResult.isErr : DelResult → Bool
  | .notFound _ => true
  | _ => false

/-- Text `result['message']` / `result['error']` of the result dictionary. -/
def DelResult.text : DelResult → String
  | .allDeleted _ => "All sales have been deleted"
  | .one _ i => "Sale #" ++ i ++ " has been deleted"
  | .notFound i => "No sale found with ID " ++ i

/-- Postgres `int4` input conversion for the `id = %s` comparison: optional
surrounding ASCII whitespace, optional sign, decimal digits, and the 32-bit
range check; anything else raises `invalid input syntax`, and a syntactically
valid value outside `[-2^31, 2^31)` raises `value out of range`. -/
def pgParseInt : String → Except String Int := fun s =>
  let l := s.data.dropWhile isSpaceC
  let signed : Bool × List Char :=
    match l with
    | '-' :: r => (true, r)
    | '+' :: r => (false, r)
    | _ => (false, l)
  let ds := signed.2.takeWhile isDigitC
  let rest := (signed.2.drop ds.length).dropWhile isSpaceC
  if ds.isEmpty || !rest.isEmpty then
    .error ("invalid input syntax for type integer: " ++ s)
  else
    let n : Int := if signed.1 then -(digitsVal ds : Int) else (digitsVal ds : Int)
    if n < -2147483648 ∨ 2147483647 < n then
      .error ("value out of range for type integer: " ++ s)
    else .ok n

/-- The effective `delete_sale` (app.py lines 65-77; it shadows the earlier
definition at lines 39-54).  The connection is acquired first (`dbErr` fault),
then `sale_id.lower()` is taken — an `AttributeError` on non-strings — and
compared case-insensitively against `'all'`; otherwise the identifier is
compared against the integer `id` column, which raises on non-integer text.
Exceptions roll the transaction back, so `Except.error` leaves no mutation. -/
def delete_sale (dbErr : Option String) (sale_id : JVal) (st : Ledger) :
    Except String (DelResult × Ledger) :=
  match dbErr with
  | some e => .error e
  | none =>
    match sale_id with
    | .str s =>
      if s.toLower = "all" then
        .ok (.allDeleted st.rows.length, { rows := [], nextId := st.nextId })
      else
        match pgParseInt s with
        | .error e => .error e
        | .ok n =>
          match st.rows.find? (fun r => (r.id : Int) = n) with
          | some r => .ok (.one r s, { rows := st.rows.filter (fun r => (r.id : Int) ≠ n),
                                       nextId := st.nextId })
          | none => .ok (.notFound s, st)
    | _ => .error "AttributeError: object has no attribute \x27lower\x27"

/-- Route `/api/sales/<sale_id>` DELETE (app.py lines 147-155): presents the
`error` result as a 404, a success as 200, and an exception as 500. -/
def delete_sale_route (dbErr : Option String) (sale_id : String) (st : Ledger) :
    (Nat × String) × Ledger :=
  match delete_sale dbErr (.str sale_id) st with
  | .ok (r, st') =>
      if r.isErr then ((404, r.text), st') else ((200, r.text), st')
  | .error e => ((500, e), st)

/-- Python dict accumulation `d[k] = d.get(k, 0) + v` on the insertion-ordered
`items_sold` dictionary: update in place if present, else append. -/
def dictAdd : List (String × Rat) → String → Rat → List (String × Rat)
  | [], k, v => [(k, v)]
  | (k', v') :: rest, k, v =>
      if k' = k then (k', v' + v) :: rest else (k', v') :: dictAdd rest k v

/-- Update `hourly_sales[h] += v` on the fixed 24-entry dictionary. -/
def bumpHour : List (Nat × Rat) → Nat → Rat → List (Nat × Rat)
  | [], _, _ => []
  | (h', v') :: rest, h, v =>
      if h' = h then (h', v' + v) :: bumpHour rest h v
      else (h', v') :: bumpHour rest h v

/-- Dictionary `\x7bhour: 0 for hour in range(24)\x7d`. -/
def zeroHours : List (Nat × Rat) := (List.range 24).map (fun h => (h, 0))

/-- Value of a key in an insertion-ordered string dictionary, 0 if absent. -/
def lookS : List (String × Rat) → String → Rat
  | [], _ => 0
  | (a, b) :: tl, k => if a = k then b else lookS tl k

/-- Value of a key in the hourly dictionary, 0 if absent. -/
def lookH : List (Nat × Rat) → Nat → Rat
  | [], _ => 0
  | (a, b) :: tl, h => if a = h then b else lookH tl h

/-- Model of `max(items_sold.items(), key=lambda x: x[1])`: Python's `max` keeps the
first element attaining the maximum (a later element replaces the current one
only when strictly greater). -/
def pyMaxSnd : List (String × Rat) → Option (String × Rat)
  | [] => none
  | x :: xs => some (xs.foldl (fun b y => if b.2 < y.2 then y else b) x)

/-- Field `.hour` of a `created_at` timestamp held in minutes. -/
def hourOf (t : Nat) : Nat := t / 60 % 24

/-- Zero-padded rendering of a two-digit field. -/
def pad2 (n : Nat) : String := if n < 10 then "0" ++ toString n else toString n

/-- Model of `created_at.strftime` with format `%H:%M`. -/
def fmtTime (t : Nat) : String := pad2 (hourOf t) ++ ":" ++ pad2 (t % 60)

/-- One reduced entry of `recent_sales`. -/
structure RecentSale where
  item_name : String
  quantity : Rat
  price : Rat
  total : Rat
  time : String
deriving Repr, DecidableEq

/-- The summary dictionary returned by `compute_summary`. -/
structure Summary where
  total_revenue : Rat
  total_sales_count : Rat
  avg_order_value : Rat
  best_selling_item : Option String
  best_selling_quantity : Rat
  items_sold : List (String × Rat)
  hourly_sales : List (Nat × Rat)
  recent_sales : List RecentSale
deriving Repr, DecidableEq

/-- Function `compute_summary` (app.py lines 91-140): the all-zero structure on an
empty ledger, otherwise revenue/unit-count/average, the insertion-ordered
`items_sold` dictionary, Python-`max` best seller, the 24-hour distribution
and the five most recent rows (stable descending sort by `created_at`). -/
def compute_summary (sales : List Sale) : Summary :=
  if sales.isEmpty then
    { total_revenue := 0, total_sales_count := 0, avg_order_value := 0,
      best_selling_item := none, best_selling_quantity := 0,
      items_sold := [], hourly_sales := zeroHours, recent_sales := [] }
  else
    let total_revenue := (sales.map (fun s => s.quantity * s.price)).sum
    let total_sales_count := (sales.map (fun s => s.quantity)).sum
    let avg_order_value := total_revenue / (sales.length : Rat)
    let items_sold := sales.foldl (fun d s => dictAdd d s.item_name s.quantity) []
    let best := pyMaxSnd items_sold
    let hourly_sales :=
      sales.foldl (fun d s => bumpHour d (hourOf s.created_at) s.quantity) zeroHours
    let recent := (sortDescBy (fun s => s.created_at) sales).take 5
    { total_revenue := total_revenue, total_sales_count := total_sales_count,
      avg_order_value := avg_order_value,
      best_selling_item := (best.map (fun b => b.1)),
      best_selling_quantity := ((best.map (fun b => b.2)).getD 0),
      items_sold := items_sold, hourly_sales := hourly_sales,
      recent_sales := recent.map (fun s =>
        { item_name := s.item_name, quantity := s.quantity, price := s.price,
          total := s.quantity * s.price, time := fmtTime s.created_at }) }

/-- The three-record example of the specification. -/
def exSales : List Sale :=
  [ { id := 1, item_name := "eggs", quantity := 3, price := 2, created_at := 600 },
    { id := 2, item_name := "eggs", quantity := 2, price := 2, created_at := 630 },
    { id := 3, item_name := "milk", quantity := 1, price := 3, created_at := 840 } ]

/-- The warning glyph sequence that the source file literally contains (the
bytes are a double-encoded warning-sign emoji). -/
def warnGlyph : String := "‚ö†Ô∏è"

/-- The literal check-mark glyph sequence of the source file. -/
def okGlyph : String := "‚úÖ"

/-- The literal cross glyph sequence of the source file. -/
def crossGlyph : String := "‚ùå"

/-- The literal chart glyph sequence of the source file. -/
def chartGlyph : String := "üìä"

/-- The fixed no-credential fallback text (app.py line 215). -/
def geminiUnavailableMsg : String := warnGlyph ++ " Gemini unavailable. Enter sales manually."

/-- Clarification text for a missing `sale_id` (line 355). -/
def pleaseSpecifyMsg : String :=
  warnGlyph ++ " Please specify a sale ID or \x27all\x27 to remove sales"

/-- The delete-all confirmation request text (line 361). -/
def confirmDeleteAllMsg : String :=
  warnGlyph ++ " Are you sure you want to delete ALL sales? This cannot be undone! " ++
  "Type \x27yes, delete all\x27 to confirm."

/-- Test `startsWithChars pat l`: the pattern starts the list. -/
def startsWithChars : List Char → List Char → Bool
  | [], _ => true
  | _ :: _, [] => false
  | p :: ps, c :: cs => decide (p = c) && startsWithChars ps cs

/-- Index of the first occurrence of the closing `"\n```"` of the fence
pattern (the lazy `(.*?)` group stops there; `re.DOTALL` lets it span
newlines). -/
def findFenceStop : List Char → Option Nat
  | [] => none
  | c :: rest =>
      if startsWithChars ['\n', '`', '`', '`'] (c :: rest) then some 0
      else (findFenceStop rest).map (fun i => i + 1)

/-- The lazy group before the first `"\n```"`. -/
def lazyGroup (l : List Char) : Option (List Char) :=
  (findFenceStop l).map (fun i => l.take i)

/-- One anchored attempt of `` ```(?:json\n)?(.*?)\n``` ``: three backticks,
a greedy optional `json\n`, then the lazy group. -/
def fenceAt (l : List Char) : Option (List Char) :=
  if startsWithChars ['`', '`', '`'] l then
    let rest := l.drop 3
    if startsWithChars ['j', 's', 'o', 'n', '\n'] rest then
      match lazyGroup (rest.drop 5) with
      | some g => some g
      | none => lazyGroup rest
    else lazyGroup rest
  else none

/-- Model of `re.search` for the fence pattern: leftmost successful attempt. -/
def extractFence : List Char → Option (List Char)
  | [] => none
  | c :: rest =>
      match fenceAt (c :: rest) with
      | some g => some g
      | none => extractFence rest

/-- Whitespace skipped by the JSON decoder. -/
def jWs (l : List Char) : List Char :=
  l.dropWhile (fun c => decide (c = ' ') || decide (c = '\t') ||
    decide (c = '\n') || decide (c = '\r'))

/-- Hexadecimal digit value for `\uXXXX` escapes. -/
def hexVal (c : Char) : Option Nat :=
  if isDigitC c then some (c.toNat - 48)
  else if decide ('a' ≤ c) && decide (c ≤ 'f') then some (c.toNat - 87)
  else if decide ('A' ≤ c) && decide (c ≤ 'F') then some (c.toNat - 55)
  else none

/-- JSON string body after the opening quote (model of the `json` module's
string scanner, with the standard escapes). -/
def pJString : Nat → List Char → List Char → Except String (String × List Char)
  | 0, _, _ => .error "Unterminated string"
  | _ + 1, [], _ => .error "Unterminated string"
  | f + 1, c :: rest, acc =>
    if c = '"' then .ok (String.mk acc.reverse, rest)
    else if c = '\\' then
      match rest with
      | [] => .error "Unterminated string"
      | e :: rest2 =>
        if e = '"' then pJString f rest2 ('"' :: acc)
        else if e = '\\' then pJString f rest2 ('\\' :: acc)
        else if e = '/' then pJString f rest2 ('/' :: acc)
        else if e = 'b' then pJString f rest2 ('\x08' :: acc)
        else if e = 'f' then pJString f rest2 ('\x0c' :: acc)
        else if e = 'n' then pJString f rest2 ('\n' :: acc)
        else if e = 'r' then pJString f rest2 ('\r' :: acc)
        else if e = 't' then pJString f rest2 ('\t' :: acc)
        else if e = 'u' then
          match rest2 with
          | h1 :: h2 :: h3 :: h4 :: rest3 =>
            match hexVal h1, hexVal h2, hexVal h3, hexVal h4 with
            | some a, some b, some c', some d =>
                pJString f rest3 (Char.ofNat (((a * 16 + b) * 16 + c') * 16 + d) :: acc)
            | _, _, _, _ => .error "Invalid \\uXXXX escape"
          | _ => .error "Invalid \\uXXXX escape"
        else .error "Invalid \\escape"
    else pJString f rest (c :: acc)

/-- JSON number at the head of the input: optional minus, integer digits,
optional fraction, optional exponent. -/
def pJNumber (l : List Char) : Except String (Rat × List Char) :=
  let signed : Bool × List Char :=
    match l with
    | '-' :: r => (true, r)
    | _ => (false, l)
  let ds := signed.2.takeWhile isDigitC
  if ds.isEmpty then .error "Expecting value"
  else
    let afterInt := signed.2.drop ds.length
    let fracPart : Option (List Char × List Char) :=
      match afterInt with
      | '.' :: r =>
        let fs := r.takeWhile isDigitC
        if fs.isEmpty then none else some (fs, r.drop fs.length)
      | _ => some ([], afterInt)
    match fracPart with
    | none => .error "Expecting digits after decimal point"
    | some (fs, afterFrac) =>
      let expPart : Option (Int × List Char) :=
        match afterFrac with
        | 'e' :: r | 'E' :: r =>
          let signedE : Bool × List Char :=
            match r with
            | '-' :: r2 => (true, r2)
            | '+' :: r2 => (false, r2)
            | _ => (false, r)
          let es := signedE.2.takeWhile isDigitC
          if es.isEmpty then none
          else
            let e : Int := digitsVal es
            some (if signedE.1 then -e else e, signedE.2.drop es.length)
        | _ => some (0, afterFrac)
      match expPart with
      | none => .error "Expecting digits in exponent"
      | some (ex, rest) =>
        let mag : Rat := pyFloat ds fs * (if ex < 0 then 1 / 10 ^ (-ex).toNat else 10 ^ ex.toNat)
        .ok ((if signed.1 then -mag else mag), rest)

mutual

/-- JSON value scanner (model of `json.loads`), with a fuel argument that
strictly dominates the nesting and element counts of any input these theorems
exercise. -/
def pJVal : Nat → List Char → Except String (JVal × List Char)
  | 0, _ => .error "Too deeply nested"
  | f + 1, l =>
    let l := jWs l
    match l with
    | [] => .error "Expecting value"
    | c :: rest =>
      if c = '"' then
        match pJString (rest.length + 1) rest [] with
        | .ok (s, r) => .ok (.str s, r)
        | .error e => .error e
      else if startsWithChars ['t', 'r', 'u', 'e'] (c :: rest) then
        .ok (.bool true, (c :: rest).drop 4)
      else if startsWithChars ['f', 'a', 'l', 's', 'e'] (c :: rest) then
        .ok (.bool false, (c :: rest).drop 5)
      else if startsWithChars ['n', 'u', 'l', 'l'] (c :: rest) then
        .ok (.null, (c :: rest).drop 4)
      else if c = '[' then
        match jWs rest with
        | ']' :: r => .ok (.arr [], r)
        | r => pJItems f r []
      else if c = '\x7b' then
        match jWs rest with
        | '\x7d' :: r => .ok (.obj [], r)
        | r => pJMembers f r []
      else
        match pJNumber (c :: rest) with
        | .ok (n, r) => .ok (.num n, r)
        | .error e => .error e

/-- Array items after `[`, accumulated in order. -/
def pJItems : Nat → List Char → List JVal → Except String (JVal × List Char)
  | 0, _, _ => .error "Too deeply nested"
  | f + 1, l, acc =>
    match pJVal f l with
    | .error e => .error e
    | .ok (v, r) =>
      match jWs r with
      | ',' :: r2 => pJItems f r2 (v :: acc)
      | ']' :: r2 => .ok (.arr (v :: acc).reverse, r2)
      | _ => .error "Expecting \x27,\x27 delimiter"

/-- Object members after `{`, accumulated with Python-dict semantics. -/
def pJMembers : Nat → List Char → List (String × JVal) →
    Except String (JVal × List Char)
  | 0, _, _ => .error "Too deeply nested"
  | f + 1, l, acc =>
    match jWs l with
    | '"' :: r =>
      match pJString (r.length + 1) r [] with
      | .error e => .error e
      | .ok (k, r2) =>
        match jWs r2 with
        | ':' :: r3 =>
          match pJVal f r3 with
          | .error e => .error e
          | .ok (v, r4) =>
            match jWs r4 with
            | ',' :: r5 => pJMembers f r5 (setKey acc k v)
            | '\x7d' :: r5 => .ok (.obj (setKey acc k v), r5)
            | _ => .error "Expecting \x27,\x27 delimiter"
        | _ => .error "Expecting \x27:\x27 delimiter"
    | _ => .error "Expecting property name enclosed in double quotes"

end

/-- Model of `json.loads`: a single JSON document with nothing but whitespace after
it. -/
def jsonParse (s : String) : Except String JVal :=
  match pJVal (s.length + 2) s.data with
  | .error e => .error e
  | .ok (v, rest) => if (jWs rest).isEmpty then .ok v else .error "Extra data"


/-- The JSON envelope the AI endpoint returns: the `ai_response` value and the
`action` tag when present (`none` models a payload without an `action` key).
The action-specific extra payload (summary, delete result, currency echo) is
not observed by any claim and is elided. -/
structure Envelope where
  ai_response : JVal
  action : Option String
deriving Repr

/-- Outcome of the `/ai` endpoint: the 400 `No input` reply or a 200 envelope. -/
inductive AiResult where
  | badRequest : String → AiResult
  | ok : Envelope → AiResult
deriving Repr

/-- Whether the endpoint produced an envelope (as opposed to the 400 reply). -/
def AiResult.isEnvelope : AiResult → Bool
  | .ok _ => true
  | .badRequest _ => false

/-- The `action` tag of the outcome, if any. -/
def AiResult.actionOf : AiResult → Option String
  | .ok env => env.action
  | .badRequest _ => none

/-- Model of `response_data.get("message", default)` (the default is used only when
the key is absent; an explicit `null` value is passed through). -/
def getMsg (v : JVal) (dflt : String) : JVal :=
  match jget v "message" with
  | some m => m
  | none => .str dflt

/-- Test `x is not None` on a `dict.get` result. -/
def notNone : Option JVal → Bool
  | some .null => false
  | some _ => true
  | none => false

/-- Function `insert_sale` reached with raw JSON-decoded arguments: the datastore
accepts a text name and numeric quantity/price and raises a type-adaptation
error otherwise (surfaced to the caller, not coerced); a raised error rolls
back, leaving the ledger unchanged. -/
def pgInsert (dbErr : Option String) (iname qty pr : JVal) (st : Ledger)
    (now : Nat) : Except String (Sale × Ledger) :=
  match dbErr with
  | some e => .error e
  | none =>
    match iname, qty, pr with
    | .str n, .num q, .num p => .ok (insert_sale n q p st now)
    | _, _, _ => .error "datastore type adaptation error"

/-- The generic chat / unrecognized-action envelope (app.py lines 392-395). -/
def chatEnv (v : JVal) : Envelope :=
  { ai_response := getMsg v "I\x27m not sure how to respond to that.",
    action := some "chat" }

/-- The command dispatcher of the AI endpoint (app.py lines 326-395): strict
dispatch on the `action` field of the decoded model command.  `Except.error`
models an exception escaping to the endpoint's outer handler (`.get` on a
non-dict, a datastore fault, `delete_sale` raising); every such exception
happens before any commit, so the error case carries no mutation. -/
def dispatch (dbErr : Option String) (v : JVal) (st : Ledger) (now : Nat) :
    Except String (Envelope × Ledger) :=
  match v with
  | .obj _ =>
    let act := jget v "action"
    let aStr : String :=
      match act with
      | some (.str a) => a
      | _ => ""
    let isStrAct : Bool :=
      match act with
      | some (.str _) => true
      | _ => false
    if isStrAct && aStr = "add_sale" then
      let item_name := jget v "item_name"
      let quantity := jget v "quantity"
      let price := jget v "price"
      if truthyO item_name && notNone quantity && notNone price then
        match pgInsert dbErr (item_name.getD .null) (quantity.getD .null)
            (price.getD .null) st now with
        | .error e => .error e
        | .ok (_, st') =>
            .ok ({ ai_response := getMsg v (okGlyph ++ " Sale added successfully!"),
                   action := some "sale_added" }, st')
      else .ok (chatEnv v, st)
    else if isStrAct && aStr = "get_summary" then
      match dbErr with
      | some e => .error e
      | none =>
          .ok ({ ai_response := getMsg v (chartGlyph ++ " Sales Summary"),
                 action := some "summary" }, st)
    else if isStrAct && aStr = "remove_sale" then
      let sid := jget v "sale_id"
      if !truthyO sid then
        .ok ({ ai_response := .str pleaseSpecifyMsg, action := some "error" }, st)
      else
        let isAllLit : Bool :=
          match sid with
          | some (.str s) => decide (s = "all")
          | _ => false
        if isAllLit && !truthyO (jget v "confirmed") then
          .ok ({ ai_response := .str confirmDeleteAllMsg,
                 action := some "confirm_delete_all" }, st)
        else
          match delete_sale dbErr (sid.getD .null) st with
          | .error e => .error e
          | .ok (r, st') =>
            if r.isErr then
              .ok ({ ai_response := .str (crossGlyph ++ " " ++ r.text),
                     action := some "error" }, st')
            else
              .ok ({ ai_response := .str (okGlyph ++ " " ++ r.text),
                     action := some "sale_deleted" }, st')
    else if isStrAct && aStr = "convert_currency" then
      .ok ({ ai_response := getMsg v (chartGlyph ++ " Currency Conversion"),
             action := some "convert_currency" }, st)
    else .ok (chatEnv v, st)
  | _ => .error "AttributeError: object has no attribute \x27get\x27"

/-- The endpoint's outer `except` (app.py lines 410-414): any exception
becomes a 200 envelope with the generic error text. -/
def aiCatch (e : String) (st : Ledger) : AiResult × Ledger :=
  (.ok { ai_response := .str (warnGlyph ++ " An error occurred: " ++ e),
         action := some "error" }, st)

/-- The typed parse-failure envelope (app.py lines 397-402). -/
def parseFailEnv (e : String) : Envelope :=
  { ai_response := .str (warnGlyph ++ " I had trouble processing that request. " ++ e),
    action := some "error" }

/-- The `/ai` endpoint `ai_assistant` (app.py lines 208-414).  Inputs beyond
the request text: the configured credential, the outcome of the single
external model round trip (`Except.error` = the call raised), and the
datastore connection fault.  Empty/absent text fails first with a 400; with no
credential the fixed fallback payload (which has no `action` key) is returned
without consulting `modelReply`; otherwise the first fenced block of the reply
is decoded and dispatched, every exception inside the `try` becoming the
generic error envelope. -/
def ai_assistant (dbErr : Option String) (user_text : Option String)
    (key : Option String) (modelReply : Except String String) (st : Ledger)
    (now : Nat) : AiResult × Ledger :=
  match user_text with
  | none => (.badRequest "No input", st)
  | some ut =>
    if ut = "" then (.badRequest "No input", st)
    else
      match key with
      | none => (.ok { ai_response := .str geminiUnavailableMsg, action := none }, st)
      | some _ =>
        match modelReply with
        | .error e => aiCatch e st
        | .ok t =>
          let resp := t.trim
          match extractFence resp.data with
          | none => (.ok { ai_response := .str resp, action := some "chat" }, st)
          | some g =>
            match jsonParse (String.mk g).trim with
            | .error e => (.ok (parseFailEnv e), st)
            | .ok v =>
              match dispatch dbErr v st now with
              | .ok (env, st') => (.ok env, st')
              | .error e => aiCatch e st

/-- Outcome of the sale-creation route: 201 with the stored row, 400, or 500. -/
inductive AddResult where
  | created : Sale → AddResult
  | badReq : String → AddResult
  | serverErr : String → AddResult
deriving Repr, DecidableEq

/-- Membership of a string among the elements of a JSON array (Python `in`
on a list, comparing elements with `==`). -/
def jArrHasStr (xs : List JVal) (k : String) : Bool :=
  xs.any (fun v =>
    match v with
    | .str s => decide (s = k)
    | _ => false)

/-- Substring test (Python `in` on a string). -/
def containsSub : List Char → List Char → Bool
  | [], pat => pat.isEmpty
  | c :: rest, pat => startsWithChars pat (c :: rest) || containsSub rest pat

/-- The `add_sale` route (app.py lines 166-190): a JSON-object body with all
of `item_name`/`quantity`/`price` present is inserted as given; otherwise a
`text` body goes through `parse_sales_input`, failing with 400 when
unparsable; a body with neither shape is a 400; datastore faults surface as
500.  Python's `in` makes non-dict bodies diverge: on a list it is element
membership and on a string a substring test — when such a check succeeds the
subsequent string indexing raises a `TypeError` (a 500) — while on numbers,
booleans and `null` the `in` itself raises (a 500). -/
def add_sale (dbErr : Option String) (data : JVal) (st : Ledger) (now : Nat) :
    AddResult × Ledger :=
  match data with
  | .obj _ =>
    if (jget data "item_name").isSome && (jget data "quantity").isSome &&
        (jget data "price").isSome then
      match pgInsert dbErr ((jget data "item_name").getD .null)
          ((jget data "quantity").getD .null) ((jget data "price").getD .null) st now with
      | .ok (s, st') => (.created s, st')
      | .error e => (.serverErr e, st)
    else
      match jget data "text" with
      | some (.str t) =>
        match parse_sales_input t with
        | some (i, q, p) =>
          match dbErr with
          | some e => (.serverErr e, st)
          | none =>
            let r := insert_sale i (q : Rat) p st now
            (.created r.1, r.2)
        | none => (.badReq "Cannot parse sale input.", st)
      | some _ =>
          (.serverErr "AttributeError: object has no attribute \x27lower\x27", st)
      | none =>
          (.badReq "Invalid request format. Provide either text or item details.", st)
  | .arr xs =>
      if jArrHasStr xs "item_name" && jArrHasStr xs "quantity" && jArrHasStr xs "price" then
        (.serverErr "TypeError: list indices must be integers, not str", st)
      else if jArrHasStr xs "text" then
        (.serverErr "TypeError: list indices must be integers, not str", st)
      else
        (.badReq "Invalid request format. Provide either text or item details.", st)
  | .str body =>
      if containsSub body.data "item_name".data && containsSub body.data "quantity".data &&
          containsSub body.data "price".data then
        (.serverErr "TypeError: string indices must be integers", st)
      else if containsSub body.data "text".data then
        (.serverErr "TypeError: string indices must be integers", st)
      else
        (.badReq "Invalid request format. Provide either text or item details.", st)
  | _ => (.serverErr "TypeError: argument is not iterable", st)

/-- A two-row ledger used as a concrete pre-state. -/
def L2 : Ledger :=
  { rows := [ { id := 1, item_name := "eggs", quantity := 3, price := 2, created_at := 600 },
              { id := 2, item_name := "milk", quantity := 1, price := 3, created_at := 840 } ],
    nextId := 3 }

/-- A model reply carrying an unconfirmed delete-all command whose `sale_id`
is spelled `ALL`. -/
def replyALL : String :=
  "```json\n\x7b\"action\": \"remove_sale\", \"sale_id\": \"ALL\"\x7d\n```"

/-- A model reply carrying an unconfirmed delete-all command whose `sale_id`
is spelled exactly `all`. -/
def replyAllLower : String :=
  "```json\n\x7b\"action\": \"remove_sale\", \"sale_id\": \"all\"\x7d\n```"

/-- A model reply whose fenced block is not valid JSON. -/
def replyBadJson : String := "```\n\x7bbad\n```"

/-- Claim C1 (code bug).  The claim says an unconfirmed `remove_sale` whose
`sale_id` denotes the whole ledger — the token `all`, which `delete_sale`
matches case-insensitively — never deletes and always yields the
confirmation request.  The dispatcher's gate compares `sale_id == "all"`
exactly (app.py line 359) while `delete_sale` lowercases (line 68), so the
spelled-out failing input `sale_id = "ALL"` without `confirmed` bypasses the
gate and empties the ledger, contradicting the claim, the specification's
mandatory safety gate, and the source's own embedded safety guideline
(`Never delete data without explicit user confirmation`, line 307).  The
second conjunct shows the gate engaging only on the exact lowercase token. -/
theorem C1_unconfirmed_delete_all_executes :
    (ai_assistant none (some "delete all sales") (some "key") (.ok replyALL) L2 900 =
      (.ok { ai_response := .str (okGlyph ++ " All sales have been deleted"),
             action := some "sale_deleted" }, { rows := [], nextId := 3 })) ∧
    (ai_assistant none (some "delete all sales") (some "key") (.ok replyAllLower) L2 900 =
      (.ok { ai_response := .str confirmDeleteAllMsg,
             action := some "confirm_delete_all" }, L2)) := by
  exact ⟨by with_unfolding_all rfl, by with_unfolding_all rfl⟩

/-- Claim C2, counterexample.  The claim quantifies over every listed branch,
including the no-credential fallback, and demands an envelope carrying both
`ai_response` and an `action` tag; the fallback payload (app.py line 215) has
no `action` key. -/
theorem C2_counterexample :
    ai_assistant none (some "hello") none (.ok "anything") L2 900 =
      (.ok { ai_response := .str geminiUnavailableMsg, action := none }, L2) ∧
    (ai_assistant none (some "hello") none (.ok "anything") L2 900).1.actionOf = none := by
  exact ⟨rfl, rfl⟩

/-- Every envelope the dispatcher returns carries an `action` tag. -/
theorem dispatch_action_isSome (dbErr : Option String) (v : JVal) (st : Ledger)
    (now : Nat) (env : Envelope) (st' : Ledger)
    (h : dispatch dbErr v st now = .ok (env, st')) : env.action.isSome = true := by
  cases v with
  | obj kvs =>
    simp only [dispatch] at h
    repeat' split at h
    all_goals try (obtain ⟨h1, h2⟩ := h)
    all_goals try rfl
  | null => simp [dispatch] at h
  | bool b => simp [dispatch] at h
  | num n => simp [dispatch] at h
  | str s => simp [dispatch] at h
  | arr xs => simp [dispatch] at h

/-- Claim C2, amended.  For a nonempty input and a configured credential the
endpoint always produces a 200 envelope whose `action` tag is present, a
raised model call becomes the generic error envelope with its message, and a
fenced block that fails to decode becomes the typed parse-failure envelope
carrying the decoder's diagnostic; no fault escapes.  (The amendment removes
the no-credential fallback from the uniform-envelope guarantee: that branch
returns `ai_response` without an `action` key; empty input yields the 400
validation reply rather than an envelope.) -/
theorem C2_uniform_envelopes (ut k : String) (mr : Except String String)
    (dbErr : Option String) (st : Ledger) (now : Nat) (hut : ut ≠ "") :
    (ai_assistant dbErr (some ut) (some k) mr st now).1.isEnvelope = true ∧
    (ai_assistant dbErr (some ut) (some k) mr st now).1.actionOf.isSome = true ∧
    (∀ e, mr = .error e →
      ai_assistant dbErr (some ut) (some k) mr st now = aiCatch e st) ∧
    (∀ t g e, mr = .ok t → extractFence t.trim.data = some g →
      jsonParse (String.mk g).trim = .error e →
      ai_assistant dbErr (some ut) (some k) mr st now = (.ok (parseFailEnv e), st)) := by
  cases mr with
  | error e =>
    have hv : ai_assistant dbErr (some ut) (some k) (.error e) st now = aiCatch e st := by
      simp only [ai_assistant, if_neg hut]
    refine ⟨by rw [hv]; rfl, by rw [hv]; rfl, ?_, ?_⟩
    · intro e' he'
      injection he' with h1
      subst h1
      exact hv
    · intro t' g e' ht' hg' hp'
      exact Except.noConfusion ht'
  | ok t =>
    cases hf : extractFence t.trim.data with
    | none =>
      have hv : ai_assistant dbErr (some ut) (some k) (.ok t) st now =
          (.ok { ai_response := .str t.trim, action := some "chat" }, st) := by
        simp only [ai_assistant, if_neg hut, hf]
      refine ⟨by rw [hv]; rfl, by rw [hv]; rfl, ?_, ?_⟩
      · intro e' he'
        exact Except.noConfusion he'
      · intro t' g e' ht' hg' hp'
        injection ht' with h1
        subst h1
        rw [hf] at hg'
        exact Option.noConfusion hg'
    | some g =>
      cases hp : jsonParse (String.mk g).trim with
      | error e =>
        have hv : ai_assistant dbErr (some ut) (some k) (.ok t) st now =
            (.ok (parseFailEnv e), st) := by
          simp only [ai_assistant, if_neg hut, hf, hp]
        refine ⟨by rw [hv]; rfl, by rw [hv]; rfl, ?_, ?_⟩
        · intro e' he'
          exact Except.noConfusion he'
        · intro t' g' e' ht' hg' hp'
          injection ht' with h1
          subst h1
          rw [hf] at hg'
          injection hg' with h2
          subst h2
          rw [hp] at hp'
          injection hp' with h3
          subst h3
          exact hv
      | ok v =>
        cases hd : dispatch dbErr v st now with
        | error e =>
          have hv : ai_assistant dbErr (some ut) (some k) (.ok t) st now = aiCatch e st := by
            simp only [ai_assistant, if_neg hut, hf, hp, hd]
          refine ⟨by rw [hv]; rfl, by rw [hv]; rfl, ?_, ?_⟩
          · intro e' he'
            exact Except.noConfusion he'
          · intro t' g' e' ht' hg' hp'
            injection ht' with h1
            subst h1
            rw [hf] at hg'
            injection hg' with h2
            subst h2
            rw [hp] at hp'
            exact Except.noConfusion hp'
        | ok r =>
          obtain ⟨env0, st0⟩ := r
          have hv : ai_assistant dbErr (some ut) (some k) (.ok t) st now =
              (.ok env0, st0) := by
            simp only [ai_assistant, if_neg hut, hf, hp, hd]
          refine ⟨by rw [hv]; rfl, ?_, ?_, ?_⟩
          · rw [hv]
            exact dispatch_action_isSome dbErr v st now env0 st0 hd
          · intro e' he'
            exact Except.noConfusion he'
          · intro t' g' e' ht' hg' hp'
            injection ht' with h1
            subst h1
            rw [hf] at hg'
            injection hg' with h2
            subst h2
            rw [hp] at hp'
            exact Except.noConfusion hp'

/-- Witness for C2: both the raised-model-call case and the malformed-fenced-
JSON case at concrete inputs, obtained from the theorem itself. -/
theorem C2_witness :
    ai_assistant none (some "hi") (some "k") (.error "boom") L2 900 =
      aiCatch "boom" L2 ∧
    ai_assistant none (some "hi") (some "k") (.ok replyBadJson) L2 900 =
      (.ok (parseFailEnv "Expecting property name enclosed in double quotes"), L2) := by
  refine ⟨(C2_uniform_envelopes "hi" "k" (.error "boom") none L2 900
      (by decide)).2.2.1 "boom" rfl, ?_⟩
  exact (C2_uniform_envelopes "hi" "k" (.ok replyBadJson) none L2 900
      (by decide)).2.2.2 replyBadJson "\n\x7bbad".data
      "Expecting property name enclosed in double quotes" rfl
      (by with_unfolding_all rfl) (by with_unfolding_all rfl)

/-- Claim C3 (confirmed).  The parser extracts `("eggs", 3, 5.0)` from
`"Sold 3 eggs for $5"`, fails wholesale on `"no numbers here"`, and for every
input returns either the full triple or nothing at all — never a partial
result. -/
theorem C3_parser_contract :
    parse_sales_input "Sold 3 eggs for $5" = some ("eggs", 3, 5) ∧
    parse_sales_input "no numbers here" = none ∧
    (∀ s : String, parse_sales_input s = none ∨
      ∃ item qty price, parse_sales_input s = some (item, qty, price)) := by
  refine ⟨by with_unfolding_all rfl, rfl, ?_⟩
  intro s
  cases h : parse_sales_input s with
  | none => exact Or.inl rfl
  | some t => exact Or.inr ⟨t.1, t.2.1, t.2.2, rfl⟩

/-- Claim C4 (confirmed).  On the empty collection every numeric field is 0,
the best seller is absent with quantity 0, `items_sold` and `recent_sales`
are empty, and `hourly_sales` holds exactly the keys 0-23, all zero. -/
theorem C4_empty_summary :
    compute_summary [] =
      { total_revenue := 0, total_sales_count := 0, avg_order_value := 0,
        best_selling_item := none, best_selling_quantity := 0, items_sold := [],
        hourly_sales := (List.range 24).map (fun h => (h, 0)), recent_sales := [] } ∧
    (compute_summary []).hourly_sales.map (fun p => p.1) = List.range 24 ∧
    (∀ p ∈ (compute_summary []).hourly_sales, p.2 = 0) := by
  refine ⟨rfl, rfl, ?_⟩
  intro p hp
  fin_cases hp <;> rfl

/-- Claim C6, counterexample.  The claim covers every identifier other than
`all` that matches no record; for the non-numeric identifier `"abc"`, and
likewise for the out-of-`int4`-range identifier `"2147483648"`, the datastore
comparison against the integer `id` column raises instead of reporting
not-found, and the route surfaces a 500, not the 404-equivalent. -/
theorem C6_counterexample :
    delete_sale none (.str "abc") L2 =
      .error "invalid input syntax for type integer: abc" ∧
    delete_sale_route none "abc" L2 =
      ((500, "invalid input syntax for type integer: abc"), L2) ∧
    delete_sale none (.str "2147483648") L2 =
      .error "value out of range for type integer: 2147483648" ∧
    delete_sale_route none "2147483648" L2 =
      ((500, "value out of range for type integer: 2147483648"), L2) := by
  exact ⟨by with_unfolding_all rfl, by with_unfolding_all rfl,
    by with_unfolding_all rfl, by with_unfolding_all rfl⟩

/-- Claim C6, amended.  For every identifier other than `all` that the
datastore's `int4` input conversion accepts (optional sign and digits, within
the 32-bit range) and that matches no stored id, `delete_sale` removes
nothing, raises nothing, and returns the typed not-found result, which the
route presents as a 404 with the not-found message (identifiers rejected by
the conversion — non-numeric or out of range — instead surface a raised
datastore error as a 500). -/
theorem C6_delete_nonexistent (s : String) (n : Int) (st : Ledger)
    (h1 : s.toLower ≠ "all") (h2 : pgParseInt s = .ok n)
    (h3 : ∀ r ∈ st.rows, (r.id : Int) ≠ n) :
    delete_sale none (.str s) st = .ok (.notFound s, st) ∧
    delete_sale_route none s st = ((404, "No sale found with ID " ++ s), st) := by
  have hf : st.rows.find? (fun r => decide ((r.id : Int) = n)) = none := by
    rw [List.find?_eq_none]
    intro r hr
    simpa using h3 r hr
  have hd : delete_sale none (.str s) st = .ok (.notFound s, st) := by
    simp only [delete_sale, if_neg h1, h2, hf]
  refine ⟨hd, ?_⟩
  simp only [delete_sale_route, hd, DelResult.isErr, if_pos]
  rfl

/-- Witness for C6 at the concrete absent id 999 on the two-row ledger. -/
theorem C6_witness :
    delete_sale none (.str "999") L2 = .ok (.notFound "999", L2) ∧
    delete_sale_route none "999" L2 = ((404, "No sale found with ID " ++ "999"), L2) :=
  C6_delete_nonexistent "999" 999 L2 (by with_unfolding_all decide)
    (by with_unfolding_all rfl) (by with_unfolding_all decide)

/-- Claim C7, counterexample.  The claim quantifies over every input text;
the empty text is answered by the 400 `No input` validation reply before the
credential check, not by the fallback envelope. -/
theorem C7_counterexample :
    ai_assistant none (some "") none (.ok "ignored") L2 900 =
      (.badRequest "No input", L2) ∧
    (ai_assistant none (some "") none (.ok "ignored") L2 900).1.isEnvelope = false := by
  exact ⟨rfl, rfl⟩

/-- Claim C7, amended.  With no credential configured, every nonempty input
text yields exactly the fixed fallback payload, unchanged state, and the
result does not depend on the model round trip (none is attempted). -/
theorem C7_no_credential_fallback (ut : String) (mr : Except String String)
    (dbErr : Option String) (st : Ledger) (now : Nat) (hut : ut ≠ "") :
    ai_assistant dbErr (some ut) none mr st now =
      (.ok { ai_response := .str geminiUnavailableMsg, action := none }, st) := by
  simp only [ai_assistant, if_neg hut]

/-- Witness for C7 at a concrete input and two different model outcomes. -/
theorem C7_witness :
    ai_assistant none (some "hello") none (.ok "reply") L2 900 =
      (.ok { ai_response := .str geminiUnavailableMsg, action := none }, L2) ∧
    ai_assistant none (some "hello") none (.error "down") L2 900 =
      (.ok { ai_response := .str geminiUnavailableMsg, action := none }, L2) :=
  ⟨C7_no_credential_fallback "hello" (.ok "reply") none L2 900 (by decide),
   C7_no_credential_fallback "hello" (.error "down") none L2 900 (by decide)⟩

/-- Claim C10, counterexample.  The claim covers every present non-string
`sale_id`, but the falsy value `0` is answered by the clarification envelope
before `delete_sale` is ever called: no exception is raised and the
`ai_response` is the specify-an-id text, not the outer handler's generic
`An error occurred` message. -/
theorem C10_counterexample :
    dispatch none (.obj [("action", .str "remove_sale"), ("sale_id", .num 0)]) L2 900 =
      .ok ({ ai_response := .str pleaseSpecifyMsg, action := some "error" }, L2) ∧
    (dispatch none (.obj [("action", .str "remove_sale"), ("sale_id", .num 0)]) L2 900).isOk
      = true := by
  exact ⟨by with_unfolding_all rfl, by with_unfolding_all rfl⟩

/-- Claim C10, amended.  For every `remove_sale` command whose `sale_id` is
present, truthy, and not a string, the effective `delete_sale` raises (it
calls `.lower()` on the identifier), so the dispatcher propagates the
exception, which the endpoint's outer handler converts into the generic
`action: error` envelope with the original ledger untouched. -/
theorem C10_nonstring_sale_id (v sid : JVal) (st : Ledger) (now : Nat)
    (ha : jget v "action" = some (.str "remove_sale"))
    (hs : jget v "sale_id" = some sid)
    (ht : sid.truthy = true)
    (hns : ∀ s : String, sid ≠ .str s) :
    dispatch none v st now =
      .error "AttributeError: object has no attribute \x27lower\x27" ∧
    aiCatch "AttributeError: object has no attribute \x27lower\x27" st =
      (.ok { ai_response := .str (warnGlyph ++ " An error occurred: " ++
               "AttributeError: object has no attribute \x27lower\x27"),
             action := some "error" }, st) := by
  refine ⟨?_, rfl⟩
  cases v with
  | obj kvs =>
    have hall : (match (some sid : Option JVal) with
        | some (JVal.str s) => decide (s = "all")
        | _ => false) = false := by
      cases sid with
      | str s => exact absurd rfl (hns s)
      | null => rfl
      | bool b => rfl
      | num n => rfl
      | arr xs => rfl
      | obj o => rfl
    have hdel : delete_sale none sid st =
        .error "AttributeError: object has no attribute \x27lower\x27" := by
      cases sid with
      | str s => exact absurd rfl (hns s)
      | null => rfl
      | bool b => rfl
      | num n => rfl
      | arr xs => rfl
      | obj o => rfl
    simp only [dispatch, ha, hs, truthyO, ht, Option.getD]
    simp [hall, hdel]
  | null => exact absurd ha (by simp [jget])
  | bool b => exact absurd ha (by simp [jget])
  | num n => exact absurd ha (by simp [jget])
  | str s => exact absurd ha (by simp [jget])
  | arr xs => exact absurd ha (by simp [jget])

/-- Witness for C10 at the concrete numeric identifier 123. -/
theorem C10_witness :
    dispatch none (.obj [("action", .str "remove_sale"), ("sale_id", .num 123)]) L2 900 =
      .error "AttributeError: object has no attribute \x27lower\x27" ∧
    aiCatch "AttributeError: object has no attribute \x27lower\x27" L2 =
      (.ok { ai_response := .str (warnGlyph ++ " An error occurred: " ++
               "AttributeError: object has no attribute \x27lower\x27"),
             action := some "error" }, L2) :=
  C10_nonstring_sale_id (.obj [("action", .str "remove_sale"), ("sale_id", .num 123)])
    (.num 123) L2 900 rfl rfl (by with_unfolding_all rfl)
    (fun s h => JVal.noConfusion h)

/-- Membership through the stable descending insertion. -/
theorem mem_insertDescBy (key : Sale → Nat) (x y : Sale) (l : List Sale) :
    y ∈ insertDescBy key x l ↔ y = x ∨ y ∈ l := by
  induction l with
  | nil => simp [insertDescBy]
  | cons z zs ih =>
    by_cases h : key z ≤ key x
    · simp [insertDescBy, h]
    · simp only [insertDescBy, if_neg h, List.mem_cons, ih]
      tauto

/-- Membership through the stable descending sort. -/
theorem mem_sortDescBy (key : Sale → Nat) (l : List Sale) (y : Sale) :
    y ∈ sortDescBy key l ↔ y ∈ l := by
  induction l with
  | nil => simp [sortDescBy]
  | cons z zs ih =>
    simp only [sortDescBy, mem_insertDescBy, ih, List.mem_cons]

/-- Insertion preserves the descending order. -/
theorem pairwise_insertDescBy (key : Sale → Nat) (x : Sale) (l : List Sale)
    (hl : l.Pairwise (fun a b => key b ≤ key a)) :
    (insertDescBy key x l).Pairwise (fun a b => key b ≤ key a) := by
  induction l with
  | nil => simp [insertDescBy]
  | cons z zs ih =>
    obtain ⟨hz, hzs⟩ := List.pairwise_cons.mp hl
    by_cases h : key z ≤ key x
    · simp only [insertDescBy, if_pos h]
      refine List.pairwise_cons.mpr ⟨?_, hl⟩
      intro w hw
      rcases List.mem_cons.mp hw with rfl | hw'
      · exact h
      · exact le_trans (hz w hw') h
    · simp only [insertDescBy, if_neg h]
      refine List.pairwise_cons.mpr ⟨?_, ih hzs⟩
      intro w hw
      rcases (mem_insertDescBy key x w zs).mp hw with rfl | hw'
      · exact Nat.le_of_lt (Nat.lt_of_not_le h)
      · exact hz w hw'

/-- The sort output is descending in the key. -/
theorem pairwise_sortDescBy (key : Sale → Nat) (l : List Sale) :
    (sortDescBy key l).Pairwise (fun a b => key b ≤ key a) := by
  induction l with
  | nil => simp [sortDescBy]
  | cons z zs ih => exact pairwise_insertDescBy key z (sortDescBy key zs) ih

/-- An element with a strictly maximal key comes out first. -/
theorem head_sortDescBy (key : Sale → Nat) (l : List Sale) (x : Sale)
    (hx : x ∈ l) (hmax : ∀ y ∈ l, y ≠ x → key y < key x) :
    (sortDescBy key l).head? = some x := by
  cases hsort : sortDescBy key l with
  | nil =>
    exact absurd ((mem_sortDescBy key l x).mpr hx) (by simp [hsort])
  | cons h t =>
    have hh : h ∈ l := (mem_sortDescBy key l h).mp (by rw [hsort]; exact List.mem_cons_self h t)
    have hxmem : x ∈ h :: t := by
      rw [← hsort]
      exact (mem_sortDescBy key l x).mpr hx
    rcases List.mem_cons.mp hxmem with rfl | hxt
    · rfl
    · by_cases hhx : h = x
      · rw [hhx]
        rfl
      · exfalso
        have hsorted := pairwise_sortDescBy key l
        rw [hsort] at hsorted
        obtain ⟨hhead, _⟩ := List.pairwise_cons.mp hsorted
        exact absurd (hhead x hxt) (Nat.not_le_of_lt (hmax h hh hhx))

/-- Claim C9 (confirmed).  Inserting a sale into a well-formed ledger and
fetching yields a sequence containing the new record, which carries the
server-assigned id and timestamp, appears first, has an id larger than every
pre-existing id, and the whole sequence is ordered newest-first by id. -/
theorem C9_insert_then_fetch (n : String) (q p : Rat) (st : Ledger) (now : Nat)
    (hwf : st.WF) :
    (insert_sale n q p st now).1.id = st.nextId ∧
    (insert_sale n q p st now).1.created_at = now ∧
    (insert_sale n q p st now).1.item_name = n ∧
    (insert_sale n q p st now).1 ∈ fetch_sales (insert_sale n q p st now).2 ∧
    (fetch_sales (insert_sale n q p st now).2).head? = some (insert_sale n q p st now).1 ∧
    (fetch_sales (insert_sale n q p st now).2).Pairwise (fun a b => b.id ≤ a.id) ∧
    (∀ r ∈ st.rows, r.id < (insert_sale n q p st now).1.id) := by
  set s : Sale := { id := st.nextId, item_name := n, quantity := q,
                    price := p, created_at := now } with hs
  have h1 : (insert_sale n q p st now).1 = s := rfl
  have h2 : (insert_sale n q p st now).2.rows = st.rows ++ [s] := rfl
  have hlt : ∀ r ∈ st.rows, r.id < s.id := fun r hr => hwf r hr
  have hmem : s ∈ st.rows ++ [s] := List.mem_append_right _ (List.mem_singleton.mpr rfl)
  have hmax : ∀ y ∈ st.rows ++ [s], y ≠ s → y.id < s.id := by
    intro y hy hne
    rcases List.mem_append.mp hy with hy' | hy'
    · exact hlt y hy'
    · exact absurd (List.mem_singleton.mp hy') hne
  refine ⟨rfl, rfl, rfl, ?_, ?_, ?_, hlt⟩
  · rw [h1]
    unfold fetch_sales
    rw [h2]
    exact (mem_sortDescBy _ _ s).mpr hmem
  · rw [h1]
    unfold fetch_sales
    rw [h2]
    exact head_sortDescBy _ _ s hmem hmax
  · unfold fetch_sales
    rw [h2]
    exact pairwise_sortDescBy _ _

/-- Witness for C9 on the two-row ledger. -/
theorem C9_witness :
    (insert_sale "tea" 2 4 L2 1000).1.id = L2.nextId ∧
    (insert_sale "tea" 2 4 L2 1000).1.created_at = 1000 ∧
    (insert_sale "tea" 2 4 L2 1000).1.item_name = "tea" ∧
    (insert_sale "tea" 2 4 L2 1000).1 ∈ fetch_sales (insert_sale "tea" 2 4 L2 1000).2 ∧
    (fetch_sales (insert_sale "tea" 2 4 L2 1000).2).head? =
      some (insert_sale "tea" 2 4 L2 1000).1 ∧
    (fetch_sales (insert_sale "tea" 2 4 L2 1000).2).Pairwise (fun a b => b.id ≤ a.id) ∧
    (∀ r ∈ L2.rows, r.id < (insert_sale "tea" 2 4 L2 1000).1.id) :=
  C9_insert_then_fetch "tea" 2 4 L2 1000 (by decide)

/-- The word group returned by the backtracking matcher is a prefix of its
input segment. -/
theorem tryWordAux_take (l : List Char) (j : Nat) (w : List Char) (p : Rat)
    (h : tryWordAux l j = some (w, p)) : ∃ j', w = l.take j' := by
  induction j with
  | zero => exact absurd h (by simp [tryWordAux])
  | succ j ih =>
    simp only [tryWordAux] at h
    split at h
    · injection h with h1
      exact ⟨j + 1, (congrArg Prod.fst h1).symm⟩
    · exact ih h

/-- Any successful anchored attempt carves its word group out of the input:
the input is some prefix, then the group, then a suffix. -/
theorem matchAt_split (l : List Char) (q : Nat) (w : List Char) (p : Rat)
    (h : matchAt l = some (q, w, p)) : ∃ pre post, l = pre ++ w ++ post := by
  simp only [matchAt] at h
  split at h
  · exact absurd h (by simp)
  · split at h
    · exact absurd h (by simp)
    · split at h
      next w' p' heq =>
        injection h with h1
        have hw : w = w' := (congrArg (fun t => t.2.1) h1).symm
        subst hw
        obtain ⟨j', hj⟩ := tryWordAux_take _ _ _ _ heq
        refine ⟨l.take (l.takeWhile isDigitC).length ++
          ((l.drop (l.takeWhile isDigitC).length).take
            ((l.drop (l.takeWhile isDigitC).length).takeWhile isSpaceC).length),
          ((l.drop (l.takeWhile isDigitC).length).drop
            ((l.drop (l.takeWhile isDigitC).length).takeWhile isSpaceC).length).drop j', ?_⟩
        rw [hj]
        simp only [List.append_assoc, List.take_append_drop]
      next => exact absurd h (by simp)

/-- The leftmost search inherits the carve-out property. -/
theorem searchQWP_split (l : List Char) (q : Nat) (w : List Char) (p : Rat)
    (h : searchQtyWordPrice l = some (q, w, p)) : ∃ pre post, l = pre ++ w ++ post := by
  induction l with
  | nil => exact absurd h (by simp [searchQtyWordPrice])
  | cons c rest ih =>
    simp only [searchQtyWordPrice] at h
    split at h
    next r heq =>
      injection h with h1
      subst h1
      exact matchAt_split _ _ _ _ heq
    next =>
      obtain ⟨pre, post, hsp⟩ := ih h
      exact ⟨c :: pre, post, by simp [hsp]⟩

/-- Claim C8, counterexample.  A free-text request submitted as
`Sold 3 EGGS for $5` is persisted with `item_name = "eggs"`: the parser
matches against the lowercased text, so the submitted case is not
preserved. -/
theorem C8_counterexample :
    (add_sale none (.obj [("text", .str "Sold 3 EGGS for $5")])
        { rows := [], nextId := 1 } 0).2.rows.map (fun s => s.item_name) = ["eggs"] ∧
    ("eggs" : String) ≠ "EGGS" := by
  exact ⟨by with_unfolding_all rfl, by decide⟩

/-- Claim C8, amended.  The structured path stores `item_name` exactly as
submitted; the free-text path stores the item token as it appears in the
lowercased text (the parser lowercases before matching), illustrated by
`Sold 3 EGGS for $5` parsing to the stored name `eggs`. -/
theorem C8_item_name_case :
    (∀ (n : String) (q p : Rat) (st : Ledger) (now : Nat),
      ((insert_sale n q p st now).1).item_name = n) ∧
    (∀ (text : String) (i : String) (q : Nat) (p : Rat),
      parse_sales_input text = some (i, q, p) →
      ∃ pre post, pyLower text.data = pre ++ i.data ++ post) ∧
    parse_sales_input "Sold 3 EGGS for $5" = some ("eggs", 3, 5) := by
  refine ⟨fun n q p st now => rfl, ?_, by with_unfolding_all rfl⟩
  intro text i q p h
  simp only [parse_sales_input] at h
  split at h
  next q' w p' heq =>
    injection h with h1
    have hi : i = String.mk w := (congrArg (fun t => t.1) h1).symm
    subst hi
    exact searchQWP_split _ _ _ _ heq
  next => exact absurd h (by simp)

/-- Witness for C8: the carve-out at the concrete uppercase input, via the
theorem itself. -/
theorem C8_witness :
    ∃ pre post, pyLower "Sold 3 EGGS for $5".data =
      pre ++ ("eggs" : String).data ++ post :=
  C8_item_name_case.2.1 "Sold 3 EGGS for $5" "eggs" 3 5 (by with_unfolding_all rfl)

/-- Accumulating into the items dictionary adds to the queried key. -/
theorem lookS_dictAdd_self (d : List (String × Rat)) (k : String) (v : Rat) :
    lookS (dictAdd d k v) k = lookS d k + v := by
  induction d with
  | nil => simp [dictAdd, lookS]
  | cons hd tl ih =>
    obtain ⟨a, b⟩ := hd
    by_cases h : a = k
    · subst h
      simp [dictAdd, lookS]
    · simp only [dictAdd, if_neg h, lookS]
      exact ih

/-- Accumulating into the items dictionary leaves other keys alone. -/
theorem lookS_dictAdd_ne (d : List (String × Rat)) (k : String) (v : Rat)
    (k' : String) (h : k' ≠ k) : lookS (dictAdd d k v) k' = lookS d k' := by
  induction d with
  | nil => simp [dictAdd, lookS, Ne.symm h]
  | cons hd tl ih =>
    obtain ⟨a, b⟩ := hd
    by_cases ha : a = k
    · subst ha
      simp [dictAdd, lookS, Ne.symm h]
    · by_cases ha' : a = k'
      · subst ha'
        simp [dictAdd, ha, lookS]
      · simp only [dictAdd, if_neg ha, lookS]
        rw [if_neg ha', if_neg ha', ih]

/-- The folded items dictionary holds, at each key, the sum of the quantities
of the sales bearing that item name. -/
theorem lookS_fold (sales : List Sale) (acc : List (String × Rat)) (k : String) :
    lookS (sales.foldl (fun d s => dictAdd d s.item_name s.quantity) acc) k =
      lookS acc k +
        ((sales.filter (fun s => s.item_name = k)).map (fun s => s.quantity)).sum := by
  induction sales generalizing acc with
  | nil => simp
  | cons s tl ih =>
    rw [List.foldl_cons, ih]
    by_cases h : s.item_name = k
    · rw [h, lookS_dictAdd_self]
      simp [List.filter_cons, h]
      ring
    · rw [lookS_dictAdd_ne _ _ _ _ (fun hh => h hh.symm)]
      simp [List.filter_cons, h]

/-- Dictionary accumulation never empties the dictionary. -/
theorem dictAdd_ne_nil (d : List (String × Rat)) (k : String) (v : Rat) :
    dictAdd d k v ≠ [] := by
  cases d with
  | nil => simp [dictAdd]
  | cons hd tl =>
    obtain ⟨a, b⟩ := hd
    by_cases h : a = k <;> simp [dictAdd, h]

/-- Folding sales into a nonempty dictionary keeps it nonempty. -/
theorem fold_dictAdd_ne_nil (sales : List Sale) (acc : List (String × Rat))
    (hacc : acc ≠ []) :
    sales.foldl (fun d s => dictAdd d s.item_name s.quantity) acc ≠ [] := by
  induction sales generalizing acc with
  | nil => simpa
  | cons s tl ih =>
    rw [List.foldl_cons]
    exact ih _ (dictAdd_ne_nil _ _ _)

/-- Bumping an hour bucket adds to that bucket when the key is present. -/
theorem lookH_bumpHour_self (d : List (Nat × Rat)) (h : Nat) (v : Rat)
    (hin : h ∈ d.map (fun p => p.1)) :
    lookH (bumpHour d h v) h = lookH d h + v := by
  induction d with
  | nil => simp at hin
  | cons hd tl ih =>
    obtain ⟨a, b⟩ := hd
    by_cases ha : a = h
    · subst ha
      simp [bumpHour, lookH]
    · have hin' : h ∈ tl.map (fun p => p.1) := by
        rw [List.map_cons] at hin
        rcases List.mem_cons.mp hin with h1 | h1
        · exact absurd h1.symm ha
        · exact h1
      simp only [bumpHour, if_neg ha, lookH]
      exact ih hin'

/-- Bumping an hour bucket leaves the other buckets alone. -/
theorem lookH_bumpHour_ne (d : List (Nat × Rat)) (h : Nat) (v : Rat)
    (h' : Nat) (hne : h' ≠ h) : lookH (bumpHour d h v) h' = lookH d h' := by
  induction d with
  | nil => simp [bumpHour]
  | cons hd tl ih =>
    obtain ⟨a, b⟩ := hd
    by_cases ha : a = h
    · subst ha
      simp only [bumpHour, if_pos rfl, lookH]
      rw [if_neg (fun hh => hne hh.symm), if_neg (fun hh => hne hh.symm), ih]
    · by_cases ha' : a = h'
      · subst ha'
        simp [bumpHour, ha, lookH]
      · simp only [bumpHour, if_neg ha, lookH]
        rw [if_neg ha', if_neg ha', ih]

/-- Bumping preserves the key list. -/
theorem keys_bumpHour (d : List (Nat × Rat)) (h : Nat) (v : Rat) :
    (bumpHour d h v).map (fun p => p.1) = d.map (fun p => p.1) := by
  induction d with
  | nil => simp [bumpHour]
  | cons hd tl ih =>
    obtain ⟨a, b⟩ := hd
    by_cases ha : a = h <;> simp [bumpHour, ha, ih]

/-- The folded hourly dictionary keeps the key list of its seed. -/
theorem keys_fold_bump (sales : List Sale) (acc : List (Nat × Rat)) :
    (sales.foldl (fun d s => bumpHour d (hourOf s.created_at) s.quantity) acc).map
        (fun p => p.1) = acc.map (fun p => p.1) := by
  induction sales generalizing acc with
  | nil => rfl
  | cons s tl ih =>
    rw [List.foldl_cons, ih, keys_bumpHour]

/-- The folded hourly dictionary holds, at each present hour, the seed value
plus the summed quantities of the sales created in that hour. -/
theorem lookH_fold (sales : List Sale) (acc : List (Nat × Rat)) (h : Nat)
    (hin : h ∈ acc.map (fun p => p.1)) :
    lookH (sales.foldl (fun d s => bumpHour d (hourOf s.created_at) s.quantity) acc) h =
      lookH acc h +
        ((sales.filter (fun s => hourOf s.created_at = h)).map (fun s => s.quantity)).sum := by
  induction sales generalizing acc with
  | nil => simp
  | cons s tl ih =>
    rw [List.foldl_cons]
    have hin' : h ∈ (bumpHour acc (hourOf s.created_at) s.quantity).map (fun p => p.1) := by
      rw [keys_bumpHour]; exact hin
    rw [ih _ hin']
    by_cases hh : hourOf s.created_at = h
    · rw [hh, lookH_bumpHour_self _ _ _ hin]
      simp [List.filter_cons, hh]
      ring
    · rw [lookH_bumpHour_ne _ _ _ _ (fun hc => hh hc.symm)]
      simp [List.filter_cons, hh]

/-- Specification of Python's first-maximum fold: the result is bounded below
by the seed, dominates every element, and is either the seed itself or the
first element of the list strictly exceeding everything before it. -/
theorem foldl_max_spec (xs : List (String × Rat)) (b : String × Rat) :
    b.2 ≤ (xs.foldl (fun acc y => if acc.2 < y.2 then y else acc) b).2 ∧
    (∀ x ∈ xs, x.2 ≤ (xs.foldl (fun acc y => if acc.2 < y.2 then y else acc) b).2) ∧
    ((xs.foldl (fun acc y => if acc.2 < y.2 then y else acc) b) = b ∨
      ∃ l1 l2, xs = l1 ++ (xs.foldl (fun acc y => if acc.2 < y.2 then y else acc) b) :: l2 ∧
        b.2 < (xs.foldl (fun acc y => if acc.2 < y.2 then y else acc) b).2 ∧
        ∀ x ∈ l1, x.2 < (xs.foldl (fun acc y => if acc.2 < y.2 then y else acc) b).2) := by
  induction xs generalizing b with
  | nil => simp
  | cons y ys ih =>
    rw [List.foldl_cons]
    by_cases h : b.2 < y.2
    · rw [if_pos h]
      obtain ⟨h1, h2, h3⟩ := ih y
      refine ⟨le_trans (le_of_lt h) h1, ?_, ?_⟩
      · intro x hx
        rcases List.mem_cons.mp hx with rfl | hx'
        · exact h1
        · exact h2 x hx'
      · rcases h3 with heq | ⟨l1, l2, hsplit, hlt, hall⟩
        · right
          refine ⟨[], ys, ?_, ?_, by simp⟩
          · rw [heq]
            rfl
          · rw [heq]
            exact h
        · right
          refine ⟨y :: l1, l2, by rw [List.cons_append, ← hsplit], lt_trans h hlt, ?_⟩
          intro x hx
          rcases List.mem_cons.mp hx with rfl | hx'
          · exact hlt
          · exact hall x hx'
    · rw [if_neg h]
      obtain ⟨h1, h2, h3⟩ := ih b
      refine ⟨h1, ?_, ?_⟩
      · intro x hx
        rcases List.mem_cons.mp hx with rfl | hx'
        · exact le_trans (not_lt.mp h) h1
        · exact h2 x hx'
      · rcases h3 with heq | ⟨l1, l2, hsplit, hlt, hall⟩
        · left
          exact heq
        · right
          refine ⟨y :: l1, l2, by rw [List.cons_append, ← hsplit], hlt, ?_⟩
          intro x hx
          rcases List.mem_cons.mp hx with rfl | hx'
          · exact lt_of_le_of_lt (not_lt.mp h) hlt
          · exact hall x hx'

/-- Claim C5 (confirmed).  On every nonempty collection the summary's
revenue is the sum of quantity times price, the sales count is the sum of
quantities, the average divides revenue by the number of records, the items
dictionary sums quantities per item name, the best seller is the first
dictionary entry attaining the maximal quantity, the hourly dictionary keeps
exactly the keys 0-23 with per-hour quantity sums, and at most five recent
rows are kept; the specification's three-record example evaluates to the
stated figures with recent rows newest-first. -/
theorem C5_nonempty_summary (sales : List Sale) (hne : sales ≠ []) :
    (compute_summary sales).total_revenue =
      (sales.map (fun s => s.quantity * s.price)).sum ∧
    (compute_summary sales).total_sales_count = (sales.map (fun s => s.quantity)).sum ∧
    (compute_summary sales).avg_order_value =
      (sales.map (fun s => s.quantity * s.price)).sum / (sales.length : Rat) ∧
    (∀ k, lookS (compute_summary sales).items_sold k =
      ((sales.filter (fun s => s.item_name = k)).map (fun s => s.quantity)).sum) ∧
    (∃ bi bq, (compute_summary sales).best_selling_item = some bi ∧
      (compute_summary sales).best_selling_quantity = bq ∧
      (∃ l1 l2, (compute_summary sales).items_sold = l1 ++ (bi, bq) :: l2 ∧
        ∀ x ∈ l1, x.2 < bq) ∧
      (∀ x ∈ (compute_summary sales).items_sold, x.2 ≤ bq)) ∧
    ((compute_summary sales).hourly_sales.map (fun p => p.1) = List.range 24) ∧
    (∀ h, h < 24 → lookH (compute_summary sales).hourly_sales h =
      ((sales.filter (fun s => hourOf s.created_at = h)).map (fun s => s.quantity)).sum) ∧
    (compute_summary sales).recent_sales.length ≤ 5 ∧
    (compute_summary exSales).total_revenue = 13 ∧
    (compute_summary exSales).total_sales_count = 6 ∧
    (compute_summary exSales).avg_order_value = 13 / 3 ∧
    (compute_summary exSales).best_selling_item = some "eggs" ∧
    (compute_summary exSales).best_selling_quantity = 5 ∧
    lookH (compute_summary exSales).hourly_sales 10 = 5 ∧
    lookH (compute_summary exSales).hourly_sales 14 = 1 ∧
    (compute_summary exSales).recent_sales.map (fun r => r.time) =
      ["14:00", "10:30", "10:00"] := by
  have hEmp : sales.isEmpty = false := by
    cases sales with
    | nil => exact absurd rfl hne
    | cons a l => rfl
  have hS : compute_summary sales =
      { total_revenue := (sales.map (fun s => s.quantity * s.price)).sum,
        total_sales_count := (sales.map (fun s => s.quantity)).sum,
        avg_order_value :=
          (sales.map (fun s => s.quantity * s.price)).sum / (sales.length : Rat),
        best_selling_item :=
          ((pyMaxSnd (sales.foldl (fun d s => dictAdd d s.item_name s.quantity) [])).map
            (fun b => b.1)),
        best_selling_quantity :=
          (((pyMaxSnd (sales.foldl (fun d s => dictAdd d s.item_name s.quantity) [])).map
            (fun b => b.2)).getD 0),
        items_sold := sales.foldl (fun d s => dictAdd d s.item_name s.quantity) [],
        hourly_sales :=
          sales.foldl (fun d s => bumpHour d (hourOf s.created_at) s.quantity) zeroHours,
        recent_sales := ((sortDescBy (fun s => s.created_at) sales).take 5).map (fun s =>
          { item_name := s.item_name, quantity := s.quantity, price := s.price,
            total := s.quantity * s.price, time := fmtTime s.created_at }) } := by
    unfold compute_summary
    rw [hEmp]
    rfl
  have hkeys0 : zeroHours.map (fun p => (p.1 : Nat)) = List.range 24 := by rfl
  have hitems : sales.foldl (fun d s => dictAdd d s.item_name s.quantity) [] ≠ [] := by
    cases sales with
    | nil => exact absurd rfl hne
    | cons s tl =>
      rw [List.foldl_cons]
      exact fold_dictAdd_ne_nil tl _ (dictAdd_ne_nil _ _ _)
  refine ⟨by rw [hS], by rw [hS], by rw [hS], ?_, ?_, ?_, ?_, ?_,
    by with_unfolding_all rfl, by with_unfolding_all rfl, by with_unfolding_all rfl,
    by with_unfolding_all rfl, by with_unfolding_all rfl, by with_unfolding_all rfl,
    by with_unfolding_all rfl, by with_unfolding_all rfl⟩
  · intro k
    rw [hS]
    show lookS (sales.foldl (fun d s => dictAdd d s.item_name s.quantity) []) k = _
    rw [lookS_fold]
    simp [lookS]
  · obtain ⟨i0, irest, hcons⟩ := List.exists_cons_of_ne_nil hitems
    have hmax := foldl_max_spec irest i0
    refine ⟨(irest.foldl (fun acc y => if acc.2 < y.2 then y else acc) i0).1,
      (irest.foldl (fun acc y => if acc.2 < y.2 then y else acc) i0).2, ?_, ?_, ?_, ?_⟩
    · rw [hS]
      show ((pyMaxSnd (sales.foldl (fun d s => dictAdd d s.item_name s.quantity) [])).map
        (fun b => b.1)) = _
      rw [hcons]
      rfl
    · rw [hS]
      show (((pyMaxSnd (sales.foldl (fun d s => dictAdd d s.item_name s.quantity) [])).map
        (fun b => b.2)).getD 0) = _
      rw [hcons]
      rfl
    · rw [hS]
      show ∃ l1 l2, sales.foldl (fun d s => dictAdd d s.item_name s.quantity) [] =
        l1 ++ _ :: l2 ∧ _
      rw [hcons]
      rcases hmax.2.2 with heq | ⟨l1, l2, hsplit, hlt, hall⟩
      · refine ⟨[], irest, ?_, by simp⟩
        rw [heq]
        rfl
      · refine ⟨i0 :: l1, l2, ?_, ?_⟩
        · rw [List.cons_append, ← hsplit]
        · intro x hx
          rcases List.mem_cons.mp hx with rfl | hx'
          · exact hlt
          · exact hall x hx'
    · rw [hS]
      show ∀ x ∈ sales.foldl (fun d s => dictAdd d s.item_name s.quantity) [], _
      rw [hcons]
      intro x hx
      rcases List.mem_cons.mp hx with rfl | hx'
      · exact hmax.1
      · exact hmax.2.1 x hx'
  · rw [hS]
    show (sales.foldl (fun d s => bumpHour d (hourOf s.created_at) s.quantity)
      zeroHours).map (fun p => p.1) = _
    rw [keys_fold_bump, hkeys0]
  · intro h hh
    rw [hS]
    show lookH (sales.foldl (fun d s => bumpHour d (hourOf s.created_at) s.quantity)
      zeroHours) h = _
    have hin : h ∈ zeroHours.map (fun p => p.1) := by
      rw [hkeys0]
      exact List.mem_range.mpr hh
    rw [lookH_fold _ _ _ hin]
    have hz : ∀ h2, h2 < 24 → lookH zeroHours h2 = 0 := by decide
    rw [hz h hh, zero_add]
  · rw [hS]
    show (((sortDescBy (fun s => s.created_at) sales).take 5).map _).length ≤ 5
    rw [List.length_map, List.length_take]
    omega

/-- Witness for C5: the general equations instantiated on the three-record
example, via the theorem itself. -/
theorem C5_witness :
    (compute_summary exSales).total_revenue =
      (exSales.map (fun s => s.quantity * s.price)).sum ∧
    lookS (compute_summary exSales).items_sold "eggs" =
      ((exSales.filter (fun s => s.item_name = "eggs")).map (fun s => s.quantity)).sum ∧
    lookH (compute_summary exSales).hourly_sales 10 =
      ((exSales.filter (fun s => hourOf s.created_at = 10)).map (fun s => s.quantity)).sum := by
  have h := C5_nonempty_summary exSales (by decide)
  exact ⟨h.1, h.2.2.2.1 "eggs", h.2.2.2.2.2.2.1 10 (by decide)⟩
